import Mathlib

/-
  Verification model of motion_capture_firefly (src/motion_capture_firefly/thread_cam.py).

  The development embeds the program in three layers:
  * a fuel-driven model of `poll_for_trigger_ready`, over a stream of register values;
  * a sequential model of `CameraWorker.run`, over an oracle of call outcomes,
    reproducing Python try/finally and except-clause semantics
    (multiprocessing.Barrier.wait raises BrokenBarrierError both on timeout and
    once the barrier is aborted; `except multiprocessing.TimeoutError` matches
    only TimeoutError, and an exception raised inside a `finally` block skips
    the remaining statements of that block);
  * a labelled transition system for N worker processes sharing one
    multiprocessing.Barrier and one stop Event, plus the manager.
-/

namespace ThreadCam

/-! ### Register constants (thread_cam.py lines 6-7) -/

def SOFTWARE_TRIGGER : Nat := 0x62C

def FIRE_VALUE : Nat := 0x80000000

/-- `if not (reg_val & FIRE_VALUE)` : the camera is ready when bit 31 is clear. -/
def trigger_is_ready (reg_val : Nat) : Bool := reg_val &&& FIRE_VALUE == 0

/-! ### Readiness poller (thread_cam.py lines 9-20)

`poll_for_trigger_ready(cam)` loops: read the register, break if bit 31 is
clear, otherwise `time.sleep(0.001)` and re-read.  The model takes the stream
of values successive `readRegister` calls return, and fuel bounding how many
iterations we unfold; `none` means the loop was still running when the fuel ran
out.  Note the source function receives only `cam`: it has no stop-signal
parameter, so neither does the model. -/

inductive PollEvent
  | readReg (addr : Nat) (value : Nat)
  | sleep (seconds : ℚ)
  deriving DecidableEq

def PollEvent.isSleep : PollEvent → Bool
  | .sleep _ => true
  | _ => false

def PollEvent.isRead : PollEvent → Bool
  | .readReg _ _ => true
  | _ => false

def poll_for_trigger_ready (regs : Nat → Nat) : Nat → Nat → List PollEvent × Option Nat
  | 0, _ => ([], none)
  | fuel + 1, k =>
    if trigger_is_ready (regs k) then
      ([PollEvent.readReg SOFTWARE_TRIGGER (regs k)], some k)
    else
      (PollEvent.readReg SOFTWARE_TRIGGER (regs k) ::
         PollEvent.sleep (1 / 1000 : ℚ) :: (poll_for_trigger_ready regs fuel (k + 1)).1,
       (poll_for_trigger_ready regs fuel (k + 1)).2)

/-- The trace the poller produces between observation `k` and the first ready
observation `d` steps later: each busy read is followed by a 1 ms sleep, the
final ready read by none. -/
def expectedPollTrace (regs : Nat → Nat) : Nat → Nat → List PollEvent
  | k, 0 => [PollEvent.readReg SOFTWARE_TRIGGER (regs k)]
  | k, d + 1 =>
    PollEvent.readReg SOFTWARE_TRIGGER (regs k) ::
      PollEvent.sleep (1 / 1000 : ℚ) :: expectedPollTrace regs (k + 1) d

/-! ### Python exception and call-outcome modelling -/

/-- The exception classes relevant to thread_cam.py. -/
inductive PyExn
  | fc2error            -- PyCapture2.Fc2error
  | brokenBarrierError  -- threading.BrokenBarrierError
  | timeoutError        -- multiprocessing.TimeoutError
  deriving DecidableEq

/-- Outcome of one external SDK call: returns normally or raises Fc2error. -/
inductive Outcome
  | ok
  | err
  deriving DecidableEq

/-- What the shared barrier does during one `self.barrier.wait(timeout=5)` call. -/
inductive WaitResult
  | released  -- all N parties arrived in this generation
  | timedOut  -- the 5 second timeout elapsed
  | aborted   -- the barrier is (or becomes) broken via abort()
  deriving DecidableEq

/-- CPython semantics of `Barrier.wait(timeout)`: a timeout breaks the barrier
and raises BrokenBarrierError; waiting on a broken/aborted barrier raises
BrokenBarrierError; a release returns normally. -/
def barrier_wait_raises : WaitResult → Option PyExn
  | .released => none
  | .timedOut => some PyExn.brokenBarrierError
  | .aborted => some PyExn.brokenBarrierError

/-- The `except multiprocessing.TimeoutError` clause at thread_cam.py line 63:
it matches only multiprocessing.TimeoutError. -/
def caught_by_timeout_handler : PyExn → Bool
  | .timeoutError => true
  | _ => false

/-- The `except PyCapture2.Fc2error` clause at thread_cam.py line 74. -/
def caught_by_fc2_handler : PyExn → Bool
  | .fc2error => true
  | _ => false

/-! ### Sequential model of one iteration of the worker loop
(thread_cam.py lines 55-75) -/

/-- The calls `CameraWorker.run` makes, in the order the model records them. -/
inductive Call
  | getEmbeddedImageInfo
  | setEmbeddedImageInfo
  | printTimestampMsg
  | connect
  | getTriggerMode
  | setTriggerMode
  | startCapture
  | printStandingBy
  | pollForTriggerReady
  | barrierWait
  | writeRegister
  | retrieveBuffer
  | printCaptureSuccess
  | printCaptureError
  | stopCapture
  | disconnect
  deriving DecidableEq

/-- The oracle for a single pass through the while-loop body. -/
structure CycleEnv where
  stopAtTop : Bool      -- value of self.stop_event.is_set() at the loop top
  wait : WaitResult     -- behaviour of self.barrier.wait(timeout=5)
  fire : Outcome        -- cam.writeRegister(SOFTWARE_TRIGGER, FIRE_VALUE)
  retrieve : Outcome    -- cam.retrieveBuffer()
  deriving DecidableEq

inductive CycleOutcome
  | exitedLoop          -- loop condition false: stop_event was set
  | continueNext        -- body completed (or exception caught), loop again
  | raised (e : PyExn)  -- an uncaught exception propagates out of the loop
  deriving DecidableEq

/-- One iteration: check `not self.stop_event.is_set()`; poll; `try`
`barrier.wait` `except multiprocessing.TimeoutError: continue`; fire trigger
(not wrapped in any try); `try` retrieve `except PyCapture2.Fc2error`. -/
def run_cycle (c : CycleEnv) : List Call × CycleOutcome :=
  if c.stopAtTop then ([], CycleOutcome.exitedLoop)
  else
    match barrier_wait_raises c.wait with
    | some e =>
      if caught_by_timeout_handler e then
        ([Call.pollForTriggerReady, Call.barrierWait], CycleOutcome.continueNext)
      else
        ([Call.pollForTriggerReady, Call.barrierWait], CycleOutcome.raised e)
    | none =>
      match c.fire with
      | Outcome.err =>
        ([Call.pollForTriggerReady, Call.barrierWait, Call.writeRegister],
         CycleOutcome.raised PyExn.fc2error)
      | Outcome.ok =>
        match c.retrieve with
        | Outcome.ok =>
          ([Call.pollForTriggerReady, Call.barrierWait, Call.writeRegister,
            Call.retrieveBuffer, Call.printCaptureSuccess], CycleOutcome.continueNext)
        | Outcome.err =>
          ([Call.pollForTriggerReady, Call.barrierWait, Call.writeRegister,
            Call.retrieveBuffer, Call.printCaptureError], CycleOutcome.continueNext)

inductive LoopExit
  | exitedNormally      -- while-condition became false
  | raisedExn (e : PyExn)
  | fuelOut             -- oracle exhausted while the loop was still running
  deriving DecidableEq

def run_loop : List CycleEnv → List Call × LoopExit
  | [] => ([], LoopExit.fuelOut)
  | c :: rest =>
    match run_cycle c with
    | (tr, CycleOutcome.exitedLoop) => (tr, LoopExit.exitedNormally)
    | (tr, CycleOutcome.raised e) => (tr, LoopExit.raisedExn e)
    | (tr, CycleOutcome.continueNext) =>
      (tr ++ (run_loop rest).1, (run_loop rest).2)

/-! ### Sequential model of the whole of `CameraWorker.run`
(thread_cam.py lines 37-79) -/

/-- The oracle for one whole execution of `CameraWorker.run`. -/
structure RunEnv where
  getEmbeddedInfo : Outcome   -- cam.getEmbeddedImageInfo()
  embeddedAvailable : Bool    -- embedded_info.available.timestamp
  setEmbeddedInfo : Outcome   -- cam.setEmbeddedImageInfo(timestamp=...)
  connect : Outcome           -- cam.connect(bus.getCameraFromIndex(...))
  getTriggerMode : Outcome    -- cam.getTriggerMode()
  setTriggerMode : Outcome    -- cam.setTriggerMode(trigger_mode)
  startCapture : Outcome      -- cam.startCapture()
  cycles : List CycleEnv      -- one oracle entry per loop iteration
  stopCapture : Outcome       -- cam.stopCapture()  (first statement of finally)
  disconnect : Outcome        -- cam.disconnect()   (second statement of finally)
  deriving DecidableEq

/-- `enable_embedded_timestamp(cam, enable_timestamp)` (thread_cam.py lines
22-29), as called with `enable_timestamp = True`.  It runs before the
`try` block. -/
def enable_embedded_timestamp (env : RunEnv) : List Call × Option PyExn :=
  match env.getEmbeddedInfo with
  | Outcome.err => ([Call.getEmbeddedImageInfo], some PyExn.fc2error)
  | Outcome.ok =>
    if env.embeddedAvailable then
      match env.setEmbeddedInfo with
      | Outcome.err =>
        ([Call.getEmbeddedImageInfo, Call.setEmbeddedImageInfo], some PyExn.fc2error)
      | Outcome.ok =>
        ([Call.getEmbeddedImageInfo, Call.setEmbeddedImageInfo, Call.printTimestampMsg],
         none)
    else ([Call.getEmbeddedImageInfo], none)

inductive BodyResult
  | finished (exn : Option PyExn)  -- the try-body ended (normally or raising)
  | stillLooping                   -- cycle oracle exhausted, loop still running
  deriving DecidableEq

/-- The `try` body: connect, trigger-mode configuration, startCapture, the
standby print, then the while loop. -/
def run_try_body (env : RunEnv) : List Call × BodyResult :=
  match env.connect with
  | Outcome.err => ([Call.connect], BodyResult.finished (some PyExn.fc2error))
  | Outcome.ok =>
  match env.getTriggerMode with
  | Outcome.err =>
    ([Call.connect, Call.getTriggerMode], BodyResult.finished (some PyExn.fc2error))
  | Outcome.ok =>
  match env.setTriggerMode with
  | Outcome.err =>
    ([Call.connect, Call.getTriggerMode, Call.setTriggerMode],
     BodyResult.finished (some PyExn.fc2error))
  | Outcome.ok =>
  match env.startCapture with
  | Outcome.err =>
    ([Call.connect, Call.getTriggerMode, Call.setTriggerMode, Call.startCapture],
     BodyResult.finished (some PyExn.fc2error))
  | Outcome.ok =>
    match run_loop env.cycles with
    | (tr, LoopExit.exitedNormally) =>
      ([Call.connect, Call.getTriggerMode, Call.setTriggerMode, Call.startCapture,
        Call.printStandingBy] ++ tr, BodyResult.finished none)
    | (tr, LoopExit.raisedExn e) =>
      ([Call.connect, Call.getTriggerMode, Call.setTriggerMode, Call.startCapture,
        Call.printStandingBy] ++ tr, BodyResult.finished (some e))
    | (tr, LoopExit.fuelOut) =>
      ([Call.connect, Call.getTriggerMode, Call.setTriggerMode, Call.startCapture,
        Call.printStandingBy] ++ tr, BodyResult.stillLooping)

inductive RunResult
  | done (escaping : Option PyExn)  -- run ended; escaping exception, if any
  | fuelOut                         -- still inside the while loop
  deriving DecidableEq

/-- `CameraWorker.run`: `enable_embedded_timestamp` runs before the `try`, so
an exception there skips the `finally` entirely.  Inside the `finally`,
`cam.stopCapture()` runs first; if it raises, `cam.disconnect()` is never
reached and the new exception replaces any body exception (CPython `finally`
semantics). -/
def run_worker (env : RunEnv) : List Call × RunResult :=
  match enable_embedded_timestamp env with
  | (tr0, some e) => (tr0, RunResult.done (some e))
  | (tr0, none) =>
    match run_try_body env with
    | (tr1, BodyResult.stillLooping) => (tr0 ++ tr1, RunResult.fuelOut)
    | (tr1, BodyResult.finished bodyExn) =>
      match env.stopCapture with
      | Outcome.err =>
        (tr0 ++ tr1 ++ [Call.stopCapture], RunResult.done (some PyExn.fc2error))
      | Outcome.ok =>
        match env.disconnect with
        | Outcome.err =>
          (tr0 ++ tr1 ++ [Call.stopCapture, Call.disconnect],
           RunResult.done (some PyExn.fc2error))
        | Outcome.ok =>
          (tr0 ++ tr1 ++ [Call.stopCapture, Call.disconnect], RunResult.done bodyExn)

/-- The worker reached its capture loop: `enable_embedded_timestamp`, connect,
trigger-mode configuration and startCapture all returned normally. -/
def entered_loop (env : RunEnv) : Bool :=
  (enable_embedded_timestamp env).2.isNone
    && (env.connect == Outcome.ok)
    && (env.getTriggerMode == Outcome.ok)
    && (env.setTriggerMode == Outcome.ok)
    && (env.startCapture == Outcome.ok)

/-! ### Manager construction model (thread_cam.py lines 81-95) -/

/-- `multiprocessing.Barrier(self.num_cams)`: the party count is fixed at
construction.  Every worker stores the one barrier the manager constructed. -/
structure BarrierObj where
  parties : Nat
  deriving DecidableEq

/-- `multiprocessing.Event()`: initially not set. -/
structure StopEvent where
  is_set : Bool
  deriving DecidableEq

/-- `CameraWorker.__init__(self, cam_index, barrier, stop_event)`. -/
structure CameraWorker where
  cam_index : Nat
  barrier : BarrierObj
  stop_event : StopEvent
  deriving DecidableEq

structure CameraManagerState where
  num_cams : Nat
  barrier : BarrierObj
  stop_event : StopEvent
  processes : List CameraWorker
  deriving DecidableEq

/-- `CameraManager.__init__`: discovers `num_cams` via the bus (the discovered
count is a parameter of the model), builds `Barrier(num_cams)`, an unset
Event, and an empty process list. -/
def CameraManager_init (numCams : Nat) : CameraManagerState :=
  { num_cams := numCams
    barrier := { parties := numCams }
    stop_event := { is_set := false }
    processes := [] }

/-- `CameraManager.start`: `for i in range(self.num_cams)` construct
`CameraWorker(i, self.barrier, self.stop_event)` and append its process. -/
def CameraManager_start (m : CameraManagerState) : CameraManagerState :=
  { m with
    processes :=
      m.processes ++
        (List.range m.num_cams).map
          (fun i => { cam_index := i, barrier := m.barrier, stop_event := m.stop_event }) }

/-! ### Labelled transition system: N worker processes, one barrier, one stop
event, and the manager (thread_cam.py lines 32-102)

Each worker runs `CameraWorker.run`'s while loop; the shared
multiprocessing.Barrier is modelled by its party count `N`, arrival count,
generation counter and broken flag (abort() and a wait timeout both break it,
and a broken barrier makes every current and future `wait` raise
BrokenBarrierError immediately).  A ghost `log` records the observable events,
newest first. -/

/-- Control point of one worker process. -/
inductive Phase
  | standby       -- at the top of the while loop, about to test stop_event
  | polling       -- inside poll_for_trigger_ready
  | arriving      -- poll returned; about to call self.barrier.wait(timeout=5)
  | awaiting      -- blocked inside barrier.wait
  | firing        -- wait returned normally; about to writeRegister
  | retrieving    -- trigger written; about to retrieveBuffer
  | cleanup       -- loop over (normally or by exception); in the finally block
  | disconnected  -- finally completed: stopCapture and disconnect both ran
  | crashed       -- stopCapture raised inside finally; disconnect never ran
  deriving DecidableEq

/-- Control point of the manager during `stop()`. -/
inductive MgrPhase
  | running   -- stop() not yet called
  | stopSet   -- self.stop_event.set() done
  | aborted   -- self.barrier.abort() done
  | joined    -- every p.join() returned
  deriving DecidableEq

inductive Event (N : Nat)
  | slept (i : Fin N)                -- a busy poll observation, then time.sleep
  | ready (i : Fin N)                -- poll observed bit 31 clear
  | arrive (i : Fin N) (g : Nat)     -- barrier.wait arrival in generation g
  | release (g : Nat)                -- generation g reached N arrivals
  | timeout (i : Fin N)              -- wait timed out (breaks the barrier)
  | aborted (i : Fin N)              -- wait raised BrokenBarrierError
  | fire (i : Fin N)                 -- cam.writeRegister(SOFTWARE_TRIGGER, FIRE_VALUE)
  | retrieve (i : Fin N)             -- cam.retrieveBuffer() call completed
  | disconnect (i : Fin N)           -- cam.disconnect() ran
  | stopSet                          -- manager: stop_event.set()
  | abortCalled                      -- manager: barrier.abort()
  deriving DecidableEq

structure SysState (N : Nat) where
  stop : Bool            -- the shared stop_event
  broken : Bool          -- barrier aborted/broken flag
  count : Nat            -- barrier arrivals in the current generation
  gen : Nat              -- barrier generation counter
  mgr : MgrPhase
  phase : Fin N → Phase
  log : List (Event N)   -- ghost trace, newest event first

def init (N : Nat) : SysState N :=
  { stop := false, broken := false, count := 0, gen := 0
    mgr := MgrPhase.running, phase := fun _ => Phase.standby, log := [] }

inductive SLabel (N : Nat)
  | loopGo (i : Fin N)         -- stop_event not set: enter the body
  | loopStop (i : Fin N)       -- stop_event set: leave the loop
  | pollBusy (i : Fin N)       -- readRegister saw bit 31 set; sleep 1 ms
  | pollReady (i : Fin N)      -- readRegister saw bit 31 clear; poll returns
  | arriveWait (i : Fin N)     -- wait: count+1 < N, block
  | arriveRelease (i : Fin N)  -- wait: count+1 = N, release everyone
  | arriveBroken (i : Fin N)   -- wait on a broken barrier: raise immediately
  | waitTimeout (i : Fin N)    -- blocked wait times out: break barrier, raise
  | waitBroken (i : Fin N)     -- blocked wait woken by break/abort: raise
  | fireOk (i : Fin N)         -- writeRegister returns
  | fireErr (i : Fin N)        -- writeRegister raises Fc2error (uncaught)
  | retrieveDone (i : Fin N)   -- retrieveBuffer returned or Fc2error caught
  | cleanupOk (i : Fin N)      -- finally: stopCapture ok, disconnect ran
  | cleanupErr (i : Fin N)     -- finally: stopCapture raised, disconnect skipped
  | mgrSetStop                 -- stop(): self.stop_event.set()
  | mgrAbort                   -- stop(): self.barrier.abort()
  | mgrJoin                    -- stop(): all p.join() return
  deriving DecidableEq

def SLabel.actor {N : Nat} : SLabel N → Option (Fin N)
  | .loopGo i => some i
  | .loopStop i => some i
  | .pollBusy i => some i
  | .pollReady i => some i
  | .arriveWait i => some i
  | .arriveRelease i => some i
  | .arriveBroken i => some i
  | .waitTimeout i => some i
  | .waitBroken i => some i
  | .fireOk i => some i
  | .fireErr i => some i
  | .retrieveDone i => some i
  | .cleanupOk i => some i
  | .cleanupErr i => some i
  | .mgrSetStop => none
  | .mgrAbort => none
  | .mgrJoin => none

/-- Guard of each transition. -/
def stepEnabled {N : Nat} (s : SysState N) : SLabel N → Prop
  | .loopGo i => s.phase i = Phase.standby ∧ s.stop = false
  | .loopStop i => s.phase i = Phase.standby ∧ s.stop = true
  | .pollBusy i => s.phase i = Phase.polling
  | .pollReady i => s.phase i = Phase.polling
  | .arriveWait i => s.phase i = Phase.arriving ∧ s.broken = false ∧ s.count + 1 < N
  | .arriveRelease i => s.phase i = Phase.arriving ∧ s.broken = false ∧ s.count + 1 = N
  | .arriveBroken i => s.phase i = Phase.arriving ∧ s.broken = true
  | .waitTimeout i => s.phase i = Phase.awaiting ∧ s.broken = false
  | .waitBroken i => s.phase i = Phase.awaiting ∧ s.broken = true
  | .fireOk i => s.phase i = Phase.firing
  | .fireErr i => s.phase i = Phase.firing
  | .retrieveDone i => s.phase i = Phase.retrieving
  | .cleanupOk i => s.phase i = Phase.cleanup
  | .cleanupErr i => s.phase i = Phase.cleanup
  | .mgrSetStop => s.mgr = MgrPhase.running
  | .mgrAbort => s.mgr = MgrPhase.stopSet
  | .mgrJoin =>
    s.mgr = MgrPhase.aborted ∧
      ∀ i, s.phase i = Phase.disconnected ∨ s.phase i = Phase.crashed

/-- Effect of each transition. -/
def stepNext {N : Nat} (s : SysState N) : SLabel N → SysState N
  | .loopGo i => { s with phase := Function.update s.phase i Phase.polling }
  | .loopStop i => { s with phase := Function.update s.phase i Phase.cleanup }
  | .pollBusy i => { s with log := Event.slept i :: s.log }
  | .pollReady i =>
    { s with phase := Function.update s.phase i Phase.arriving
             log := Event.ready i :: s.log }
  | .arriveWait i =>
    { s with phase := Function.update s.phase i Phase.awaiting
             count := s.count + 1
             log := Event.arrive i s.gen :: s.log }
  | .arriveRelease i =>
    { s with phase := fun j =>
               if j = i then Phase.firing
               else if s.phase j = Phase.awaiting then Phase.firing
               else s.phase j
             count := 0
             gen := s.gen + 1
             log := Event.release s.gen :: Event.arrive i s.gen :: s.log }
  | .arriveBroken i =>
    { s with phase := Function.update s.phase i Phase.cleanup
             log := Event.aborted i :: s.log }
  | .waitTimeout i =>
    { s with broken := true
             phase := Function.update s.phase i Phase.cleanup
             log := Event.timeout i :: s.log }
  | .waitBroken i =>
    { s with phase := Function.update s.phase i Phase.cleanup
             log := Event.aborted i :: s.log }
  | .fireOk i =>
    { s with phase := Function.update s.phase i Phase.retrieving
             log := Event.fire i :: s.log }
  | .fireErr i =>
    { s with phase := Function.update s.phase i Phase.cleanup
             log := Event.fire i :: s.log }
  | .retrieveDone i =>
    { s with phase := Function.update s.phase i Phase.standby
             log := Event.retrieve i :: s.log }
  | .cleanupOk i =>
    { s with phase := Function.update s.phase i Phase.disconnected
             log := Event.disconnect i :: s.log }
  | .cleanupErr i => { s with phase := Function.update s.phase i Phase.crashed }
  | .mgrSetStop => { s with stop := true, mgr := MgrPhase.stopSet, log := Event.stopSet :: s.log }
  | .mgrAbort => { s with broken := true, mgr := MgrPhase.aborted, log := Event.abortCalled :: s.log }
  | .mgrJoin => { s with mgr := MgrPhase.joined }

def Step {N : Nat} (s : SysState N) (l : SLabel N) (s2 : SysState N) : Prop :=
  stepEnabled s l ∧ s2 = stepNext s l

def Reachable (N : Nat) (s : SysState N) : Prop :=
  Relation.ReflTransGen (fun a b => ∃ l, Step a l b) (init N) s

/-! ### Trace predicates for the barrier-ordering claim -/

/-- `arrive j g` occurs in the log, with a `ready j` observation strictly
before it (the log is newest-first, so strictly before means further down). -/
def ArrivedReady {N : Nat} (j : Fin N) (g : Nat) (log : List (Event N)) : Prop :=
  ∃ p q, log = p ++ Event.arrive j g :: q ∧ Event.ready j ∈ q

/-- Generation `g` released with all `N` workers having arrived in it, each
arrival preceded by that worker's readiness observation. -/
def ReleaseJustified {N : Nat} (g : Nat) (log : List (Event N)) : Prop :=
  Event.release g ∈ log ∧ ∀ j : Fin N, ArrivedReady j g log

def awaitingSet {N : Nat} (f : Fin N → Phase) : Finset (Fin N) :=
  Finset.univ.filter (fun j => f j = Phase.awaiting)

/-- Inductive system invariant tying the barrier counter and the phases to the
ghost log. -/
structure Inv {N : Nat} (s : SysState N) : Prop where
  countAwait : s.broken = false → s.count = (awaitingSet s.phase).card
  awaitJust : s.broken = false →
    ∀ j, s.phase j = Phase.awaiting → ArrivedReady j s.gen s.log
  arrivingReady : ∀ j, s.phase j = Phase.arriving → Event.ready j ∈ s.log
  firingJust : ∀ j, s.phase j = Phase.firing → ∃ g, ReleaseJustified g s.log
  fireLogJust : ∀ pre (i : Fin N) post,
    s.log = pre ++ Event.fire i :: post → ∃ g, ReleaseJustified g post

/-! ### Concrete fixtures used by counterexamples and witnesses -/

/-- A loop pass that observes the stop event set at the top. -/
def cStop : CycleEnv :=
  { stopAtTop := true, wait := WaitResult.released, fire := Outcome.ok, retrieve := Outcome.ok }

/-- A fully successful loop pass. -/
def cNormal : CycleEnv :=
  { stopAtTop := false, wait := WaitResult.released, fire := Outcome.ok, retrieve := Outcome.ok }

/-- A loop pass in which `barrier.wait(timeout=5)` times out. -/
def cTimeout : CycleEnv :=
  { stopAtTop := false, wait := WaitResult.timedOut, fire := Outcome.ok, retrieve := Outcome.ok }

/-- A loop pass in which `writeRegister` (the fire command) raises. -/
def cFireErr : CycleEnv :=
  { stopAtTop := false, wait := WaitResult.released, fire := Outcome.err, retrieve := Outcome.ok }

/-- A loop pass in which `retrieveBuffer` raises Fc2error. -/
def cRetrieveErr : CycleEnv :=
  { stopAtTop := false, wait := WaitResult.released, fire := Outcome.ok, retrieve := Outcome.err }

/-- A run in which everything succeeds and the worker stops cleanly after one
successful capture cycle. -/
def envClean : RunEnv :=
  { getEmbeddedInfo := Outcome.ok, embeddedAvailable := true, setEmbeddedInfo := Outcome.ok
    connect := Outcome.ok, getTriggerMode := Outcome.ok, setTriggerMode := Outcome.ok
    startCapture := Outcome.ok, cycles := [cNormal, cStop]
    stopCapture := Outcome.ok, disconnect := Outcome.ok }

/-- Like `envClean` but the first barrier wait times out. -/
def envTimeout : RunEnv := { envClean with cycles := [cTimeout, cNormal] }

/-- Like `envClean` but the stopCapture call in the finally block raises. -/
def envStopCaptureErr : RunEnv := { envClean with stopCapture := Outcome.err }

/-- Like `envClean` but `getEmbeddedImageInfo` (called before the try) raises. -/
def envEmbeddedErr : RunEnv := { envClean with getEmbeddedInfo := Outcome.err }

/-- Like `envClean` but the fire command of the first cycle raises. -/
def envFireErr : RunEnv := { envClean with cycles := [cFireErr, cNormal] }

/-- A reachable one-worker demonstration state: the manager sets the stop
event while the worker is polling; the poller nevertheless sleeps, observes
readiness, arrives, releases, fires and retrieves. -/
def demoS : SysState 1 :=
  stepNext (stepNext (stepNext (stepNext (stepNext (stepNext (stepNext
    (init 1) (SLabel.loopGo 0)) SLabel.mgrSetStop) (SLabel.pollBusy 0))
    (SLabel.pollReady 0)) (SLabel.arriveRelease 0)) (SLabel.fireOk 0))
    (SLabel.retrieveDone 0)

/-- A register stream that reports busy (bit 31 set) twice, then ready. -/
def demoRegs : Nat → Nat := fun i => if i < 2 then FIRE_VALUE else 0

/-- A one-worker state whose barrier has been aborted while the worker is
blocked in `barrier.wait`. -/
def sAborted : SysState 1 :=
  { stop := true, broken := true, count := 1, gen := 0
    mgr := MgrPhase.aborted, phase := fun _ => Phase.awaiting
    log := [Event.abortCalled, Event.stopSet, Event.arrive 0 0, Event.ready 0] }

/-! ### Helper lemmas about the trace predicates -/

theorem arrivedReady_cons {N : Nat} {j : Fin N} {g : Nat} (e : Event N)
    {log : List (Event N)} (h : ArrivedReady j g log) : ArrivedReady j g (e :: log) := by
  obtain ⟨p, q, hpq, hq⟩ := h
  exact ⟨e :: p, q, by simp [hpq], hq⟩

theorem arrivedReady_here {N : Nat} {j : Fin N} {g : Nat} {log : List (Event N)}
    (h : Event.ready j ∈ log) : ArrivedReady j g (Event.arrive j g :: log) :=
  ⟨[], log, rfl, h⟩

theorem releaseJustified_cons {N : Nat} {g : Nat} (e : Event N) {log : List (Event N)}
    (h : ReleaseJustified g log) : ReleaseJustified g (e :: log) :=
  ⟨List.mem_cons_of_mem _ h.1, fun j => arrivedReady_cons e (h.2 j)⟩

theorem fireLogJust_cons {N : Nat} (e : Event N) {log : List (Event N)}
    (he : ∀ i : Fin N, e ≠ Event.fire i)
    (h : ∀ pre (i : Fin N) post,
      log = pre ++ Event.fire i :: post → ∃ g, ReleaseJustified g post) :
    ∀ pre (i : Fin N) post,
      e :: log = pre ++ Event.fire i :: post → ∃ g, ReleaseJustified g post := by
  intro pre i post heq
  cases pre with
  | nil =>
    simp only [List.nil_append, List.cons.injEq] at heq
    exact absurd heq.1 (he i)
  | cons a t =>
    simp only [List.cons_append, List.cons.injEq] at heq
    exact h t i post heq.2

theorem mem_awaitingSet {N : Nat} (f : Fin N → Phase) (j : Fin N) :
    j ∈ awaitingSet f ↔ f j = Phase.awaiting := by
  simp [awaitingSet]

theorem awaitingSet_update_ne {N : Nat} (f : Fin N → Phase) (i : Fin N) (v : Phase)
    (hv : v ≠ Phase.awaiting) (hf : f i ≠ Phase.awaiting) :
    awaitingSet (Function.update f i v) = awaitingSet f := by
  ext j
  by_cases hji : j = i
  · subst hji
    simp [awaitingSet, Function.update_apply, hv, hf]
  · simp [awaitingSet, Function.update_apply, hji]

theorem awaitingSet_update_await {N : Nat} (f : Fin N → Phase) (i : Fin N) :
    awaitingSet (Function.update f i Phase.awaiting) = insert i (awaitingSet f) := by
  ext j
  by_cases hji : j = i
  · subst hji
    simp [awaitingSet, Function.update_apply]
  · simp [awaitingSet, Function.update_apply, hji]

/-! ### The invariant holds initially and is preserved by every step -/

theorem inv_init (N : Nat) : Inv (init N) := by
  refine ⟨?_, ?_, ?_, ?_, ?_⟩
  · intro _
    simp [init, awaitingSet]
  · intro _ j hj
    simp [init] at hj
  · intro j hj
    simp [init] at hj
  · intro j hj
    simp [init] at hj
  · intro pre i post h
    simp [init] at h

theorem inv_step {N : Nat} {s s2 : SysState N} {l : SLabel N}
    (hs : Inv s) (hstep : Step s l s2) : Inv s2 := by
  obtain ⟨hen, rfl⟩ := hstep
  cases l with
  | loopGo i =>
    obtain ⟨hph, -⟩ := hen
    refine ⟨?_, ?_, ?_, ?_, ?_⟩
    · intro hb
      rw [show (stepNext s (SLabel.loopGo i)).count = s.count from rfl,
        show (stepNext s (SLabel.loopGo i)).phase = Function.update s.phase i Phase.polling from rfl,
        awaitingSet_update_ne _ _ _ (by simp) (by rw [hph]; simp)]
      exact hs.countAwait hb
    · intro hb j hj
      rw [show (stepNext s (SLabel.loopGo i)).phase j
          = Function.update s.phase i Phase.polling j from rfl, Function.update_apply] at hj
      by_cases hji : j = i <;> simp [hji] at hj
      exact hs.awaitJust hb j hj
    · intro j hj
      rw [show (stepNext s (SLabel.loopGo i)).phase j
          = Function.update s.phase i Phase.polling j from rfl, Function.update_apply] at hj
      by_cases hji : j = i <;> simp [hji] at hj
      exact hs.arrivingReady j hj
    · intro j hj
      rw [show (stepNext s (SLabel.loopGo i)).phase j
          = Function.update s.phase i Phase.polling j from rfl, Function.update_apply] at hj
      by_cases hji : j = i <;> simp [hji] at hj
      exact hs.firingJust j hj
    · exact hs.fireLogJust
  | loopStop i =>
    obtain ⟨hph, -⟩ := hen
    refine ⟨?_, ?_, ?_, ?_, ?_⟩
    · intro hb
      rw [show (stepNext s (SLabel.loopStop i)).count = s.count from rfl,
        show (stepNext s (SLabel.loopStop i)).phase = Function.update s.phase i Phase.cleanup from rfl,
        awaitingSet_update_ne _ _ _ (by simp) (by rw [hph]; simp)]
      exact hs.countAwait hb
    · intro hb j hj
      rw [show (stepNext s (SLabel.loopStop i)).phase j
          = Function.update s.phase i Phase.cleanup j from rfl, Function.update_apply] at hj
      by_cases hji : j = i <;> simp [hji] at hj
      exact hs.awaitJust hb j hj
    · intro j hj
      rw [show (stepNext s (SLabel.loopStop i)).phase j
          = Function.update s.phase i Phase.cleanup j from rfl, Function.update_apply] at hj
      by_cases hji : j = i <;> simp [hji] at hj
      exact hs.arrivingReady j hj
    · intro j hj
      rw [show (stepNext s (SLabel.loopStop i)).phase j
          = Function.update s.phase i Phase.cleanup j from rfl, Function.update_apply] at hj
      by_cases hji : j = i <;> simp [hji] at hj
      exact hs.firingJust j hj
    · exact hs.fireLogJust
  | pollBusy i =>
    refine ⟨hs.countAwait, ?_, ?_, ?_, ?_⟩
    · intro hb j hj
      exact arrivedReady_cons _ (hs.awaitJust hb j hj)
    · intro j hj
      exact List.mem_cons_of_mem _ (hs.arrivingReady j hj)
    · intro j hj
      obtain ⟨g, hg⟩ := hs.firingJust j hj
      exact ⟨g, releaseJustified_cons _ hg⟩
    · exact fireLogJust_cons _ (by intro k; simp) hs.fireLogJust
  | pollReady i =>
    have hph : s.phase i = Phase.polling := hen
    refine ⟨?_, ?_, ?_, ?_, ?_⟩
    · intro hb
      rw [show (stepNext s (SLabel.pollReady i)).count = s.count from rfl,
        show (stepNext s (SLabel.pollReady i)).phase
          = Function.update s.phase i Phase.arriving from rfl,
        awaitingSet_update_ne _ _ _ (by simp) (by rw [hph]; simp)]
      exact hs.countAwait hb
    · intro hb j hj
      rw [show (stepNext s (SLabel.pollReady i)).phase j
          = Function.update s.phase i Phase.arriving j from rfl, Function.update_apply] at hj
      by_cases hji : j = i <;> simp [hji] at hj
      exact arrivedReady_cons _ (hs.awaitJust hb j hj)
    · intro j hj
      rw [show (stepNext s (SLabel.pollReady i)).phase j
          = Function.update s.phase i Phase.arriving j from rfl, Function.update_apply] at hj
      by_cases hji : j = i
      · subst hji
        exact List.mem_cons_self _ _
      · simp [hji] at hj
        exact List.mem_cons_of_mem _ (hs.arrivingReady j hj)
    · intro j hj
      rw [show (stepNext s (SLabel.pollReady i)).phase j
          = Function.update s.phase i Phase.arriving j from rfl, Function.update_apply] at hj
      by_cases hji : j = i <;> simp [hji] at hj
      obtain ⟨g, hg⟩ := hs.firingJust j hj
      exact ⟨g, releaseJustified_cons _ hg⟩
    · exact fireLogJust_cons _ (by intro k; simp) hs.fireLogJust
  | arriveWait i =>
    obtain ⟨hph, hbr, hlt⟩ := hen
    refine ⟨?_, ?_, ?_, ?_, ?_⟩
    · intro _
      rw [show (stepNext s (SLabel.arriveWait i)).count = s.count + 1 from rfl,
        show (stepNext s (SLabel.arriveWait i)).phase
          = Function.update s.phase i Phase.awaiting from rfl,
        awaitingSet_update_await]
      rw [Finset.card_insert_of_not_mem (by rw [mem_awaitingSet, hph]; simp)]
      rw [hs.countAwait hbr]
    · intro _ j hj
      rw [show (stepNext s (SLabel.arriveWait i)).phase j
          = Function.update s.phase i Phase.awaiting j from rfl, Function.update_apply] at hj
      by_cases hji : j = i
      · subst hji
        exact arrivedReady_here (hs.arrivingReady j hph)
      · simp [hji] at hj
        exact arrivedReady_cons _ (hs.awaitJust hbr j hj)
    · intro j hj
      rw [show (stepNext s (SLabel.arriveWait i)).phase j
          = Function.update s.phase i Phase.awaiting j from rfl, Function.update_apply] at hj
      by_cases hji : j = i <;> simp [hji] at hj
      exact List.mem_cons_of_mem _ (hs.arrivingReady j hj)
    · intro j hj
      rw [show (stepNext s (SLabel.arriveWait i)).phase j
          = Function.update s.phase i Phase.awaiting j from rfl, Function.update_apply] at hj
      by_cases hji : j = i <;> simp [hji] at hj
      obtain ⟨g, hg⟩ := hs.firingJust j hj
      exact ⟨g, releaseJustified_cons _ hg⟩
    · exact fireLogJust_cons _ (by intro k; simp) hs.fireLogJust
  | arriveRelease i =>
    obtain ⟨hph, hbr, hcnt⟩ := hen
    have hall : ∀ k : Fin N, k ≠ i → s.phase k = Phase.awaiting := by
      intro k hk
      have hsub : awaitingSet s.phase ⊆ Finset.univ.erase i := by
        intro x hx
        rw [mem_awaitingSet] at hx
        refine Finset.mem_erase.2 ⟨?_, Finset.mem_univ x⟩
        intro hxi
        rw [hxi, hph] at hx
        exact Phase.noConfusion hx
      have hcard : (Finset.univ.erase i).card ≤ (awaitingSet s.phase).card := by
        rw [Finset.card_erase_of_mem (Finset.mem_univ i), Finset.card_univ, Fintype.card_fin,
          ← hs.countAwait hbr]
        omega
      have heq := Finset.eq_of_subset_of_card_le hsub hcard
      have : k ∈ awaitingSet s.phase := by
        rw [heq]
        exact Finset.mem_erase.2 ⟨hk, Finset.mem_univ k⟩
      exact (mem_awaitingSet _ _).1 this
    have hRJ : ReleaseJustified s.gen
        (Event.release s.gen :: Event.arrive i s.gen :: s.log) := by
      refine ⟨List.mem_cons_self _ _, ?_⟩
      intro k
      by_cases hki : k = i
      · subst hki
        exact ⟨[Event.release s.gen], s.log, rfl, hs.arrivingReady k hph⟩
      · exact arrivedReady_cons _ (arrivedReady_cons _ (hs.awaitJust hbr k (hall k hki)))
    refine ⟨?_, ?_, ?_, ?_, ?_⟩
    · intro _
      rw [show (stepNext s (SLabel.arriveRelease i)).count = 0 from rfl]
      have : awaitingSet (stepNext s (SLabel.arriveRelease i)).phase = ∅ := by
        ext j
        rw [mem_awaitingSet]
        show (if j = i then Phase.firing
          else if s.phase j = Phase.awaiting then Phase.firing else s.phase j)
            = Phase.awaiting ↔ _
        by_cases hji : j = i
        · simp [hji]
        · by_cases hw : s.phase j = Phase.awaiting <;> simp [hji, hw]
      rw [this, Finset.card_empty]
    · intro _ j hj
      exfalso
      revert hj
      show (if j = i then Phase.firing
        else if s.phase j = Phase.awaiting then Phase.firing else s.phase j)
          = Phase.awaiting → False
      by_cases hji : j = i
      · simp [hji]
      · by_cases hw : s.phase j = Phase.awaiting <;> simp [hji, hw]
    · intro j hj
      have hj2 : s.phase j = Phase.arriving ∧ j ≠ i := by
        revert hj
        show (if j = i then Phase.firing
          else if s.phase j = Phase.awaiting then Phase.firing else s.phase j)
            = Phase.arriving → _
        by_cases hji : j = i
        · simp [hji]
        · by_cases hw : s.phase j = Phase.awaiting <;> simp [hji, hw]
      exact List.mem_cons_of_mem _ (List.mem_cons_of_mem _ (hs.arrivingReady j hj2.1))
    · intro j _
      exact ⟨s.gen, hRJ⟩
    · refine fireLogJust_cons _ (by intro k; simp) ?_
      exact fireLogJust_cons _ (by intro k; simp) hs.fireLogJust
  | arriveBroken i =>
    obtain ⟨hph, hbr⟩ := hen
    refine ⟨?_, ?_, ?_, ?_, ?_⟩
    · intro hb
      rw [show (stepNext s (SLabel.arriveBroken i)).broken = s.broken from rfl, hbr] at hb
      exact Bool.noConfusion hb
    · intro hb
      rw [show (stepNext s (SLabel.arriveBroken i)).broken = s.broken from rfl, hbr] at hb
      exact Bool.noConfusion hb
    · intro j hj
      rw [show (stepNext s (SLabel.arriveBroken i)).phase j
          = Function.update s.phase i Phase.cleanup j from rfl, Function.update_apply] at hj
      by_cases hji : j = i <;> simp [hji] at hj
      exact List.mem_cons_of_mem _ (hs.arrivingReady j hj)
    · intro j hj
      rw [show (stepNext s (SLabel.arriveBroken i)).phase j
          = Function.update s.phase i Phase.cleanup j from rfl, Function.update_apply] at hj
      by_cases hji : j = i <;> simp [hji] at hj
      obtain ⟨g, hg⟩ := hs.firingJust j hj
      exact ⟨g, releaseJustified_cons _ hg⟩
    · exact fireLogJust_cons _ (by intro k; simp) hs.fireLogJust
  | waitTimeout i =>
    refine ⟨?_, ?_, ?_, ?_, ?_⟩
    · intro hb
      exact Bool.noConfusion hb
    · intro hb
      exact Bool.noConfusion hb
    · intro j hj
      rw [show (stepNext s (SLabel.waitTimeout i)).phase j
          = Function.update s.phase i Phase.cleanup j from rfl, Function.update_apply] at hj
      by_cases hji : j = i <;> simp [hji] at hj
      exact List.mem_cons_of_mem _ (hs.arrivingReady j hj)
    · intro j hj
      rw [show (stepNext s (SLabel.waitTimeout i)).phase j
          = Function.update s.phase i Phase.cleanup j from rfl, Function.update_apply] at hj
      by_cases hji : j = i <;> simp [hji] at hj
      obtain ⟨g, hg⟩ := hs.firingJust j hj
      exact ⟨g, releaseJustified_cons _ hg⟩
    · exact fireLogJust_cons _ (by intro k; simp) hs.fireLogJust
  | waitBroken i =>
    obtain ⟨hph, hbr⟩ := hen
    refine ⟨?_, ?_, ?_, ?_, ?_⟩
    · intro hb
      rw [show (stepNext s (SLabel.waitBroken i)).broken = s.broken from rfl, hbr] at hb
      exact Bool.noConfusion hb
    · intro hb
      rw [show (stepNext s (SLabel.waitBroken i)).broken = s.broken from rfl, hbr] at hb
      exact Bool.noConfusion hb
    · intro j hj
      rw [show (stepNext s (SLabel.waitBroken i)).phase j
          = Function.update s.phase i Phase.cleanup j from rfl, Function.update_apply] at hj
      by_cases hji : j = i <;> simp [hji] at hj
      exact List.mem_cons_of_mem _ (hs.arrivingReady j hj)
    · intro j hj
      rw [show (stepNext s (SLabel.waitBroken i)).phase j
          = Function.update s.phase i Phase.cleanup j from rfl, Function.update_apply] at hj
      by_cases hji : j = i <;> simp [hji] at hj
      obtain ⟨g, hg⟩ := hs.firingJust j hj
      exact ⟨g, releaseJustified_cons _ hg⟩
    · exact fireLogJust_cons _ (by intro k; simp) hs.fireLogJust
  | fireOk i =>
    have hph : s.phase i = Phase.firing := hen
    refine ⟨?_, ?_, ?_, ?_, ?_⟩
    · intro hb
      rw [show (stepNext s (SLabel.fireOk i)).count = s.count from rfl,
        show (stepNext s (SLabel.fireOk i)).phase
          = Function.update s.phase i Phase.retrieving from rfl,
        awaitingSet_update_ne _ _ _ (by simp) (by rw [hph]; simp)]
      exact hs.countAwait hb
    · intro hb j hj
      rw [show (stepNext s (SLabel.fireOk i)).phase j
          = Function.update s.phase i Phase.retrieving j from rfl, Function.update_apply] at hj
      by_cases hji : j = i <;> simp [hji] at hj
      exact arrivedReady_cons _ (hs.awaitJust hb j hj)
    · intro j hj
      rw [show (stepNext s (SLabel.fireOk i)).phase j
          = Function.update s.phase i Phase.retrieving j from rfl, Function.update_apply] at hj
      by_cases hji : j = i <;> simp [hji] at hj
      exact List.mem_cons_of_mem _ (hs.arrivingReady j hj)
    · intro j hj
      rw [show (stepNext s (SLabel.fireOk i)).phase j
          = Function.update s.phase i Phase.retrieving j from rfl, Function.update_apply] at hj
      by_cases hji : j = i <;> simp [hji] at hj
      obtain ⟨g, hg⟩ := hs.firingJust j hj
      exact ⟨g, releaseJustified_cons _ hg⟩
    · intro pre k post heq
      rw [show (stepNext s (SLabel.fireOk i)).log = Event.fire i :: s.log from rfl] at heq
      cases pre with
      | nil =>
        simp only [List.nil_append, List.cons.injEq] at heq
        obtain ⟨-, heq2⟩ := heq
        obtain ⟨g, hg⟩ := hs.firingJust i hph
        exact ⟨g, heq2 ▸ hg⟩
      | cons a t =>
        simp only [List.cons_append, List.cons.injEq] at heq
        exact hs.fireLogJust t k post heq.2
  | fireErr i =>
    have hph : s.phase i = Phase.firing := hen
    refine ⟨?_, ?_, ?_, ?_, ?_⟩
    · intro hb
      rw [show (stepNext s (SLabel.fireErr i)).count = s.count from rfl,
        show (stepNext s (SLabel.fireErr i)).phase
          = Function.update s.phase i Phase.cleanup from rfl,
        awaitingSet_update_ne _ _ _ (by simp) (by rw [hph]; simp)]
      exact hs.countAwait hb
    · intro hb j hj
      rw [show (stepNext s (SLabel.fireErr i)).phase j
          = Function.update s.phase i Phase.cleanup j from rfl, Function.update_apply] at hj
      by_cases hji : j = i <;> simp [hji] at hj
      exact arrivedReady_cons _ (hs.awaitJust hb j hj)
    · intro j hj
      rw [show (stepNext s (SLabel.fireErr i)).phase j
          = Function.update s.phase i Phase.cleanup j from rfl, Function.update_apply] at hj
      by_cases hji : j = i <;> simp [hji] at hj
      exact List.mem_cons_of_mem _ (hs.arrivingReady j hj)
    · intro j hj
      rw [show (stepNext s (SLabel.fireErr i)).phase j
          = Function.update s.phase i Phase.cleanup j from rfl, Function.update_apply] at hj
      by_cases hji : j = i <;> simp [hji] at hj
      obtain ⟨g, hg⟩ := hs.firingJust j hj
      exact ⟨g, releaseJustified_cons _ hg⟩
    · intro pre k post heq
      rw [show (stepNext s (SLabel.fireErr i)).log = Event.fire i :: s.log from rfl] at heq
      cases pre with
      | nil =>
        simp only [List.nil_append, List.cons.injEq] at heq
        obtain ⟨-, heq2⟩ := heq
        obtain ⟨g, hg⟩ := hs.firingJust i hph
        exact ⟨g, heq2 ▸ hg⟩
      | cons a t =>
        simp only [List.cons_append, List.cons.injEq] at heq
        exact hs.fireLogJust t k post heq.2
  | retrieveDone i =>
    have hph : s.phase i = Phase.retrieving := hen
    refine ⟨?_, ?_, ?_, ?_, ?_⟩
    · intro hb
      rw [show (stepNext s (SLabel.retrieveDone i)).count = s.count from rfl,
        show (stepNext s (SLabel.retrieveDone i)).phase
          = Function.update s.phase i Phase.standby from rfl,
        awaitingSet_update_ne _ _ _ (by simp) (by rw [hph]; simp)]
      exact hs.countAwait hb
    · intro hb j hj
      rw [show (stepNext s (SLabel.retrieveDone i)).phase j
          = Function.update s.phase i Phase.standby j from rfl, Function.update_apply] at hj
      by_cases hji : j = i <;> simp [hji] at hj
      exact arrivedReady_cons _ (hs.awaitJust hb j hj)
    · intro j hj
      rw [show (stepNext s (SLabel.retrieveDone i)).phase j
          = Function.update s.phase i Phase.standby j from rfl, Function.update_apply] at hj
      by_cases hji : j = i <;> simp [hji] at hj
      exact List.mem_cons_of_mem _ (hs.arrivingReady j hj)
    · intro j hj
      rw [show (stepNext s (SLabel.retrieveDone i)).phase j
          = Function.update s.phase i Phase.standby j from rfl, Function.update_apply] at hj
      by_cases hji : j = i <;> simp [hji] at hj
      obtain ⟨g, hg⟩ := hs.firingJust j hj
      exact ⟨g, releaseJustified_cons _ hg⟩
    · exact fireLogJust_cons _ (by intro k; simp) hs.fireLogJust
  | cleanupOk i =>
    have hph : s.phase i = Phase.cleanup := hen
    refine ⟨?_, ?_, ?_, ?_, ?_⟩
    · intro hb
      rw [show (stepNext s (SLabel.cleanupOk i)).count = s.count from rfl,
        show (stepNext s (SLabel.cleanupOk i)).phase
          = Function.update s.phase i Phase.disconnected from rfl,
        awaitingSet_update_ne _ _ _ (by simp) (by rw [hph]; simp)]
      exact hs.countAwait hb
    · intro hb j hj
      rw [show (stepNext s (SLabel.cleanupOk i)).phase j
          = Function.update s.phase i Phase.disconnected j from rfl, Function.update_apply] at hj
      by_cases hji : j = i <;> simp [hji] at hj
      exact arrivedReady_cons _ (hs.awaitJust hb j hj)
    · intro j hj
      rw [show (stepNext s (SLabel.cleanupOk i)).phase j
          = Function.update s.phase i Phase.disconnected j from rfl, Function.update_apply] at hj
      by_cases hji : j = i <;> simp [hji] at hj
      exact List.mem_cons_of_mem _ (hs.arrivingReady j hj)
    · intro j hj
      rw [show (stepNext s (SLabel.cleanupOk i)).phase j
          = Function.update s.phase i Phase.disconnected j from rfl, Function.update_apply] at hj
      by_cases hji : j = i <;> simp [hji] at hj
      obtain ⟨g, hg⟩ := hs.firingJust j hj
      exact ⟨g, releaseJustified_cons _ hg⟩
    · exact fireLogJust_cons _ (by intro k; simp) hs.fireLogJust
  | cleanupErr i =>
    have hph : s.phase i = Phase.cleanup := hen
    refine ⟨?_, ?_, ?_, ?_, ?_⟩
    · intro hb
      rw [show (stepNext s (SLabel.cleanupErr i)).count = s.count from rfl,
        show (stepNext s (SLabel.cleanupErr i)).phase
          = Function.update s.phase i Phase.crashed from rfl,
        awaitingSet_update_ne _ _ _ (by simp) (by rw [hph]; simp)]
      exact hs.countAwait hb
    · intro hb j hj
      rw [show (stepNext s (SLabel.cleanupErr i)).phase j
          = Function.update s.phase i Phase.crashed j from rfl, Function.update_apply] at hj
      by_cases hji : j = i <;> simp [hji] at hj
      exact hs.awaitJust hb j hj
    · intro j hj
      rw [show (stepNext s (SLabel.cleanupErr i)).phase j
          = Function.update s.phase i Phase.crashed j from rfl, Function.update_apply] at hj
      by_cases hji : j = i <;> simp [hji] at hj
      exact hs.arrivingReady j hj
    · intro j hj
      rw [show (stepNext s (SLabel.cleanupErr i)).phase j
          = Function.update s.phase i Phase.crashed j from rfl, Function.update_apply] at hj
      by_cases hji : j = i <;> simp [hji] at hj
      exact hs.firingJust j hj
    · exact hs.fireLogJust
  | mgrSetStop =>
    refine ⟨hs.countAwait, ?_, ?_, ?_, ?_⟩
    · intro hb j hj
      exact arrivedReady_cons _ (hs.awaitJust hb j hj)
    · intro j hj
      exact List.mem_cons_of_mem _ (hs.arrivingReady j hj)
    · intro j hj
      obtain ⟨g, hg⟩ := hs.firingJust j hj
      exact ⟨g, releaseJustified_cons _ hg⟩
    · exact fireLogJust_cons _ (by intro k; simp) hs.fireLogJust
  | mgrAbort =>
    refine ⟨?_, ?_, ?_, ?_, ?_⟩
    · intro hb
      exact Bool.noConfusion hb
    · intro hb
      exact Bool.noConfusion hb
    · intro j hj
      exact List.mem_cons_of_mem _ (hs.arrivingReady j hj)
    · intro j hj
      obtain ⟨g, hg⟩ := hs.firingJust j hj
      exact ⟨g, releaseJustified_cons _ hg⟩
    · exact fireLogJust_cons _ (by intro k; simp) hs.fireLogJust
  | mgrJoin =>
    exact ⟨hs.countAwait, hs.awaitJust, hs.arrivingReady, hs.firingJust, hs.fireLogJust⟩

/-- Every reachable state satisfies the invariant. -/
theorem reachable_inv {N : Nat} {s : SysState N} (h : Reachable N s) : Inv s := by
  induction h with
  | refl => exact inv_init N
  | tail _ hstep ih =>
    obtain ⟨l, hl⟩ := hstep
    exact inv_step ih hl

/-! ### Further helper theorems -/

/-- The demonstration state is reachable: worker enters polling, the manager
sets the stop event, the worker nevertheless sleeps once, observes readiness,
arrives (releasing the one-party barrier), fires and retrieves. -/
theorem reach_demo : Reachable 1 demoS := by
  have h0 : Reachable 1 (init 1) := Relation.ReflTransGen.refl
  have h1 := Relation.ReflTransGen.tail h0 ⟨SLabel.loopGo 0, ⟨rfl, rfl⟩, rfl⟩
  have h2 := Relation.ReflTransGen.tail h1 ⟨SLabel.mgrSetStop, rfl, rfl⟩
  have h3 := Relation.ReflTransGen.tail h2 ⟨SLabel.pollBusy 0, rfl, rfl⟩
  have h4 := Relation.ReflTransGen.tail h3 ⟨SLabel.pollReady 0, rfl, rfl⟩
  have h5 := Relation.ReflTransGen.tail h4 ⟨SLabel.arriveRelease 0, ⟨rfl, rfl, rfl⟩, rfl⟩
  have h6 := Relation.ReflTransGen.tail h5 ⟨SLabel.fireOk 0, rfl, rfl⟩
  exact Relation.ReflTransGen.tail h6 ⟨SLabel.retrieveDone 0, rfl, rfl⟩

/-- Generic poller correctness: if the first ready observation after position
`k` comes `d` reads later, the poller emits exactly the reads of positions
`k..k+d` with a 1 ms sleep after each busy one, and returns at position
`k+d`. -/
theorem poll_spec (regs : Nat → Nat) (d : Nat) : ∀ (k fuel : Nat),
    trigger_is_ready (regs (k + d)) = true →
    (∀ m, m < d → trigger_is_ready (regs (k + m)) = false) →
    d < fuel →
    poll_for_trigger_ready regs fuel k = (expectedPollTrace regs k d, some (k + d)) := by
  induction d with
  | zero =>
    intro k fuel hready _ hfuel
    cases fuel with
    | zero => omega
    | succ f =>
      simp only [Nat.add_zero] at hready
      simp [poll_for_trigger_ready, hready, expectedPollTrace]
  | succ d ih =>
    intro k fuel hready hbusy hfuel
    cases fuel with
    | zero => omega
    | succ f =>
      have hbusy0 : trigger_is_ready (regs k) = false := by
        have := hbusy 0 (by omega)
        simpa using this
      have hr2 : trigger_is_ready (regs (k + 1 + d)) = true := by
        rw [show k + 1 + d = k + (d + 1) by omega]
        exact hready
      have hb2 : ∀ m, m < d → trigger_is_ready (regs (k + 1 + m)) = false := by
        intro m hm
        rw [show k + 1 + m = k + (m + 1) by omega]
        exact hbusy (m + 1) (by omega)
      have hrec := ih (k + 1) f hr2 hb2 (by omega)
      simp [poll_for_trigger_ready, hbusy0, hrec, expectedPollTrace]
      omega

theorem expectedPollTrace_sleep_count (regs : Nat → Nat) : ∀ (d k : Nat),
    (expectedPollTrace regs k d).countP (fun e => PollEvent.isSleep e) = d := by
  intro d
  induction d with
  | zero =>
    intro k
    simp [expectedPollTrace, PollEvent.isSleep]
  | succ d ih =>
    intro k
    rw [expectedPollTrace, List.countP_cons, List.countP_cons, ih (k + 1)]
    simp [PollEvent.isSleep]

theorem expectedPollTrace_read_count (regs : Nat → Nat) : ∀ (d k : Nat),
    (expectedPollTrace regs k d).countP (fun e => PollEvent.isRead e) = d + 1 := by
  intro d
  induction d with
  | zero =>
    intro k
    simp [expectedPollTrace, PollEvent.isRead]
  | succ d ih =>
    intro k
    rw [expectedPollTrace, List.countP_cons, List.countP_cons, ih (k + 1)]
    simp [PollEvent.isRead]

/-- No iteration of the while loop ever calls stopCapture or disconnect. -/
theorem run_cycle_no_cleanup (c : CycleEnv) :
    Call.stopCapture ∉ (run_cycle c).1 ∧ Call.disconnect ∉ (run_cycle c).1 := by
  rcases c with ⟨st, w, f, r⟩
  cases st <;> cases w <;> cases f <;> cases r <;> decide

theorem run_loop_no_cleanup (cs : List CycleEnv) :
    Call.stopCapture ∉ (run_loop cs).1 ∧ Call.disconnect ∉ (run_loop cs).1 := by
  induction cs with
  | nil => simp [run_loop]
  | cons c rest ih =>
    obtain ⟨h1, h2⟩ := run_cycle_no_cleanup c
    rcases hrc : run_cycle c with ⟨tr, out⟩
    rw [hrc] at h1 h2
    cases out with
    | exitedLoop =>
      constructor <;> simp only [run_loop, hrc] <;> assumption
    | raised e =>
      constructor <;> simp only [run_loop, hrc] <;> assumption
    | continueNext =>
      constructor <;> simp only [run_loop, hrc] <;> rw [List.mem_append] <;>
        rintro (h | h)
      · exact h1 h
      · exact ih.1 h
      · exact h2 h
      · exact ih.2 h

/-- `enable_embedded_timestamp` never calls stopCapture or disconnect or
connect. -/
theorem enable_trace_no_cleanup (env : RunEnv) :
    Call.stopCapture ∉ (enable_embedded_timestamp env).1
    ∧ Call.disconnect ∉ (enable_embedded_timestamp env).1
    ∧ Call.connect ∉ (enable_embedded_timestamp env).1 := by
  cases hg : env.getEmbeddedInfo <;> cases ha : env.embeddedAvailable <;>
    cases hs : env.setEmbeddedInfo <;>
    simp [enable_embedded_timestamp, hg, ha, hs]

/-- The first call `run` ever makes is `cam.getEmbeddedImageInfo()` inside
`enable_embedded_timestamp`, before `cam.connect`. -/
theorem enable_trace_head (env : RunEnv) :
    ∃ t, (enable_embedded_timestamp env).1 = Call.getEmbeddedImageInfo :: t := by
  cases hg : env.getEmbeddedInfo <;> cases ha : env.embeddedAvailable <;>
    cases hs : env.setEmbeddedInfo <;>
    simp [enable_embedded_timestamp, hg, ha, hs]

theorem run_worker_starts_with_embedded (env : RunEnv) :
    ∃ rest, (run_worker env).1 = Call.getEmbeddedImageInfo :: rest := by
  obtain ⟨t, ht⟩ := enable_trace_head env
  rcases henv : enable_embedded_timestamp env with ⟨tr0, e0⟩
  rw [henv] at ht
  simp only at ht
  subst ht
  cases e0 with
  | some e => exact ⟨t, by simp [run_worker, henv]⟩
  | none =>
    rcases hbody : run_try_body env with ⟨tr1, b⟩
    cases b with
    | stillLooping => exact ⟨t ++ tr1, by simp [run_worker, henv, hbody]⟩
    | finished bexn =>
      cases hsc : env.stopCapture with
      | err =>
        exact ⟨t ++ tr1 ++ [Call.stopCapture], by simp [run_worker, henv, hbody, hsc]⟩
      | ok =>
        cases hd : env.disconnect with
        | err =>
          exact ⟨t ++ tr1 ++ [Call.stopCapture, Call.disconnect],
            by simp [run_worker, henv, hbody, hsc, hd]⟩
        | ok =>
          exact ⟨t ++ tr1 ++ [Call.stopCapture, Call.disconnect],
            by simp [run_worker, henv, hbody, hsc, hd]⟩

/-! ### Claim theorems -/

/-- C9: the readiness poller re-queries the register each iteration without
caching, sleeps the fixed 1 ms interval after each observation with bit 31 set
(`FIRE_VALUE = 2 ^ 31`), and returns at the first observation with bit 31
clear: given that `j` is the least index whose register value is ready, the
poller's trace is exactly the fresh reads of positions `0..j` interleaved with
`j` sleeps, and the result is `j`. -/
theorem C9_poller (regs : Nat → Nat) (j fuel : Nat)
    (hready : trigger_is_ready (regs j) = true)
    (hleast : ∀ m, m < j → trigger_is_ready (regs m) = false)
    (hfuel : j < fuel) :
    poll_for_trigger_ready regs fuel 0 = (expectedPollTrace regs 0 j, some j)
    ∧ (expectedPollTrace regs 0 j).countP (fun e => PollEvent.isSleep e) = j
    ∧ (expectedPollTrace regs 0 j).countP (fun e => PollEvent.isRead e) = j + 1
    ∧ FIRE_VALUE = 2 ^ 31
    ∧ (∀ r : Nat, trigger_is_ready r = true ↔ r &&& 2 ^ 31 = 0) := by
  refine ⟨?_, expectedPollTrace_sleep_count regs j 0,
    expectedPollTrace_read_count regs j 0, by norm_num [FIRE_VALUE], ?_⟩
  · have h := poll_spec regs j 0 fuel (by simpa using hready)
      (by intro m hm; simpa using hleast m hm) hfuel
    simpa using h
  · intro r
    rw [show (2 : Nat) ^ 31 = FIRE_VALUE by norm_num [FIRE_VALUE]]
    simp [trigger_is_ready]

/-- C9 witness: a register stream that is busy twice and then ready. -/
theorem C9_poller_witness :
    poll_for_trigger_ready demoRegs 4 0 = (expectedPollTrace demoRegs 0 2, some 2)
    ∧ (expectedPollTrace demoRegs 0 2).countP (fun e => PollEvent.isSleep e) = 2
    ∧ (expectedPollTrace demoRegs 0 2).countP (fun e => PollEvent.isRead e) = 2 + 1
    ∧ FIRE_VALUE = 2 ^ 31
    ∧ (∀ r : Nat, trigger_is_ready r = true ↔ r &&& 2 ^ 31 = 0) :=
  C9_poller demoRegs 2 4 (by decide) (by decide) (by decide)

/-- C1 counterexample: a reachable execution in which the stop event is set
(`Event.stopSet`, rightmost events happened first) while the worker is
polling, yet the poller then sleeps a full interval (`Event.slept`), returns
on readiness, and the worker arrives, fires and retrieves — so the poller does
not return a cancelled outcome at the poll boundary, and the worker does fire
and retrieve after the stop signal is set. -/
theorem C1_counterexample :
    Reachable 1 demoS
    ∧ demoS.stop = true
    ∧ demoS.log = [Event.retrieve 0, Event.fire 0, Event.release 0,
        Event.arrive 0 0, Event.ready 0, Event.slept 0, Event.stopSet] :=
  ⟨reach_demo, rfl, rfl⟩

/-- C1 amended: the readiness poller never consults the stop signal — from the
polling phase the only transitions are a further (sleeping) poll iteration or
a return upon readiness, whatever the stop flag holds; the stop signal is
observed only at the top of the while loop, and a worker that observes it
there exits immediately, with no fire or retrieve call in that pass. -/
theorem C1_amended :
    (∀ (N : Nat) (s : SysState N) (l : SLabel N) (s2 : SysState N) (i : Fin N),
        Step s l s2 → SLabel.actor l = some i → s.phase i = Phase.polling →
        s2.phase i = Phase.polling ∨ s2.phase i = Phase.arriving)
    ∧ (∀ (c : CycleEnv) (rest : List CycleEnv), c.stopAtTop = true →
        run_cycle c = ([], CycleOutcome.exitedLoop)
        ∧ run_loop (c :: rest) = ([], LoopExit.exitedNormally)) := by
  constructor
  · intro N s l s2 i hstep hact hph
    obtain ⟨hen, rfl⟩ := hstep
    cases l with
    | loopGo k =>
      simp only [SLabel.actor, Option.some.injEq] at hact
      subst hact
      exact absurd (hen.1.symm.trans hph) (by simp)
    | loopStop k =>
      simp only [SLabel.actor, Option.some.injEq] at hact
      subst hact
      exact absurd (hen.1.symm.trans hph) (by simp)
    | pollBusy k =>
      exact Or.inl hph
    | pollReady k =>
      simp only [SLabel.actor, Option.some.injEq] at hact
      subst hact
      right
      show Function.update s.phase k Phase.arriving k = Phase.arriving
      simp
    | arriveWait k =>
      simp only [SLabel.actor, Option.some.injEq] at hact
      subst hact
      exact absurd (hen.1.symm.trans hph) (by simp)
    | arriveRelease k =>
      simp only [SLabel.actor, Option.some.injEq] at hact
      subst hact
      exact absurd (hen.1.symm.trans hph) (by simp)
    | arriveBroken k =>
      simp only [SLabel.actor, Option.some.injEq] at hact
      subst hact
      exact absurd (hen.1.symm.trans hph) (by simp)
    | waitTimeout k =>
      simp only [SLabel.actor, Option.some.injEq] at hact
      subst hact
      exact absurd (hen.1.symm.trans hph) (by simp)
    | waitBroken k =>
      simp only [SLabel.actor, Option.some.injEq] at hact
      subst hact
      exact absurd (hen.1.symm.trans hph) (by simp)
    | fireOk k =>
      simp only [SLabel.actor, Option.some.injEq] at hact
      subst hact
      exact absurd (hen.symm.trans hph) (by simp)
    | fireErr k =>
      simp only [SLabel.actor, Option.some.injEq] at hact
      subst hact
      exact absurd (hen.symm.trans hph) (by simp)
    | retrieveDone k =>
      simp only [SLabel.actor, Option.some.injEq] at hact
      subst hact
      exact absurd (hen.symm.trans hph) (by simp)
    | cleanupOk k =>
      simp only [SLabel.actor, Option.some.injEq] at hact
      subst hact
      exact absurd (hen.symm.trans hph) (by simp)
    | cleanupErr k =>
      simp only [SLabel.actor, Option.some.injEq] at hact
      subst hact
      exact absurd (hen.symm.trans hph) (by simp)
    | mgrSetStop => simp [SLabel.actor] at hact
    | mgrAbort => simp [SLabel.actor] at hact
    | mgrJoin => simp [SLabel.actor] at hact
  · intro c rest h
    constructor
    · simp [run_cycle, h]
    · simp [run_loop, run_cycle, h]

/-- C1 amended witness: a pass whose loop-top stop check is true exits with no
calls. -/
theorem C1_amended_witness :
    run_cycle cStop = ([], CycleOutcome.exitedLoop)
    ∧ run_loop [cStop] = ([], LoopExit.exitedNormally) :=
  C1_amended.2 cStop [] rfl

/-- C2: on a barrier-wait timeout, CPython raises BrokenBarrierError, which
the `except multiprocessing.TimeoutError` clause does not match; the exception
escapes the loop, so the worker does not re-enter polling: it terminates,
running the finally cleanup (stopCapture, disconnect).  The subsequent cycle
of the oracle is never executed. -/
theorem C2_timeout_uncaught :
    barrier_wait_raises WaitResult.timedOut = some PyExn.brokenBarrierError
    ∧ caught_by_timeout_handler PyExn.brokenBarrierError = false
    ∧ run_cycle cTimeout = ([Call.pollForTriggerReady, Call.barrierWait],
        CycleOutcome.raised PyExn.brokenBarrierError)
    ∧ run_loop [cTimeout, cNormal]
        = ([Call.pollForTriggerReady, Call.barrierWait],
           LoopExit.raisedExn PyExn.brokenBarrierError)
    ∧ (run_worker envTimeout).2 = RunResult.done (some PyExn.brokenBarrierError)
    ∧ Call.stopCapture ∈ (run_worker envTimeout).1
    ∧ Call.disconnect ∈ (run_worker envTimeout).1 := by
  refine ⟨rfl, rfl, by decide, by decide, by decide, by decide, by decide⟩

/-- C3: once the barrier is broken (the manager's `stop()` calls
`self.barrier.abort()` after setting the stop event), a worker blocked in
`barrier.wait` and a worker calling `wait` afterwards each has an aborted
transition available at once, every step it can take lands it in the cleanup
(finally) path — it can never block or proceed to firing — the barrier stays
broken under every further step, and from cleanup the successful-finally step
performs the disconnect. -/
theorem C3_abort_semantics (N : Nat) (s : SysState N) (i : Fin N)
    (hb : s.broken = true) :
    ((s.phase i = Phase.awaiting ∨ s.phase i = Phase.arriving) →
      (∃ (l : SLabel N) (s2 : SysState N), Step s l s2 ∧ SLabel.actor l = some i
        ∧ s2.phase i = Phase.cleanup ∧ s2.log = Event.aborted i :: s.log)
      ∧ (∀ (l : SLabel N) (s2 : SysState N), Step s l s2 → SLabel.actor l = some i →
          s2.phase i = Phase.cleanup))
    ∧ (∀ (l : SLabel N) (s2 : SysState N), Step s l s2 → s2.broken = true)
    ∧ (s.phase i = Phase.cleanup →
        ∃ s2, Step s (SLabel.cleanupOk i) s2 ∧ s2.phase i = Phase.disconnected
          ∧ s2.log = Event.disconnect i :: s.log) := by
  refine ⟨?_, ?_, ?_⟩
  · intro hdisj
    constructor
    · rcases hdisj with hph | hph
      · refine ⟨SLabel.waitBroken i, stepNext s (SLabel.waitBroken i),
          ⟨⟨hph, hb⟩, rfl⟩, rfl, ?_, rfl⟩
        show Function.update s.phase i Phase.cleanup i = Phase.cleanup
        simp
      · refine ⟨SLabel.arriveBroken i, stepNext s (SLabel.arriveBroken i),
          ⟨⟨hph, hb⟩, rfl⟩, rfl, ?_, rfl⟩
        show Function.update s.phase i Phase.cleanup i = Phase.cleanup
        simp
    · rintro l s2 ⟨hen, rfl⟩ hact
      have hnotfire : s.phase i ≠ Phase.firing := by
        rcases hdisj with hph | hph <;> rw [hph] <;> simp
      cases l with
      | loopGo k =>
        simp only [SLabel.actor, Option.some.injEq] at hact
        subst hact
        rcases hdisj with hph | hph <;> exact absurd (hen.1.symm.trans hph) (by simp)
      | loopStop k =>
        simp only [SLabel.actor, Option.some.injEq] at hact
        subst hact
        rcases hdisj with hph | hph <;> exact absurd (hen.1.symm.trans hph) (by simp)
      | pollBusy k =>
        simp only [SLabel.actor, Option.some.injEq] at hact
        subst hact
        rcases hdisj with hph | hph <;> exact absurd (hen.symm.trans hph) (by simp)
      | pollReady k =>
        simp only [SLabel.actor, Option.some.injEq] at hact
        subst hact
        rcases hdisj with hph | hph <;> exact absurd (hen.symm.trans hph) (by simp)
      | arriveWait k =>
        simp only [SLabel.actor, Option.some.injEq] at hact
        subst hact
        rw [hen.2.1] at hb
        exact Bool.noConfusion hb
      | arriveRelease k =>
        simp only [SLabel.actor, Option.some.injEq] at hact
        subst hact
        rw [hen.2.1] at hb
        exact Bool.noConfusion hb
      | arriveBroken k =>
        simp only [SLabel.actor, Option.some.injEq] at hact
        subst hact
        show Function.update s.phase k Phase.cleanup k = Phase.cleanup
        simp
      | waitTimeout k =>
        simp only [SLabel.actor, Option.some.injEq] at hact
        subst hact
        rw [hen.2] at hb
        exact Bool.noConfusion hb
      | waitBroken k =>
        simp only [SLabel.actor, Option.some.injEq] at hact
        subst hact
        show Function.update s.phase k Phase.cleanup k = Phase.cleanup
        simp
      | fireOk k =>
        simp only [SLabel.actor, Option.some.injEq] at hact
        subst hact
        exact absurd hen hnotfire
      | fireErr k =>
        simp only [SLabel.actor, Option.some.injEq] at hact
        subst hact
        exact absurd hen hnotfire
      | retrieveDone k =>
        simp only [SLabel.actor, Option.some.injEq] at hact
        subst hact
        rcases hdisj with hph | hph <;> exact absurd (hen.symm.trans hph) (by simp)
      | cleanupOk k =>
        simp only [SLabel.actor, Option.some.injEq] at hact
        subst hact
        rcases hdisj with hph | hph <;> exact absurd (hen.symm.trans hph) (by simp)
      | cleanupErr k =>
        simp only [SLabel.actor, Option.some.injEq] at hact
        subst hact
        rcases hdisj with hph | hph <;> exact absurd (hen.symm.trans hph) (by simp)
      | mgrSetStop => simp [SLabel.actor] at hact
      | mgrAbort => simp [SLabel.actor] at hact
      | mgrJoin => simp [SLabel.actor] at hact
  · rintro l s2 ⟨-, rfl⟩
    cases l <;> first | exact hb | rfl
  · intro hph
    refine ⟨stepNext s (SLabel.cleanupOk i), ⟨hph, rfl⟩, ?_, rfl⟩
    show Function.update s.phase i Phase.disconnected i = Phase.disconnected
    simp

/-- C3 witness: an aborted one-worker state in which the blocked worker's
immediate aborted transition into cleanup exists. -/
theorem C3_abort_semantics_witness :
    ∃ (l : SLabel 1) (s2 : SysState 1), Step sAborted l s2 ∧ SLabel.actor l = some 0
      ∧ s2.phase 0 = Phase.cleanup ∧ s2.log = Event.aborted 0 :: sAborted.log :=
  ((C3_abort_semantics 1 sAborted 0 rfl).1 (Or.inl rfl)).1

/-- C5: in every reachable execution, any fire event (the write of the trigger
register) is preceded by a release of some generation `g` for which all `N`
workers logged an arrival in that same generation, each arrival itself
preceded by that worker's readiness observation. -/
theorem C5_no_early_fire (N : Nat) (s : SysState N) (h : Reachable N s)
    (pre : List (Event N)) (i : Fin N) (post : List (Event N))
    (hlog : s.log = pre ++ Event.fire i :: post) :
    ∃ g, Event.release g ∈ post ∧ ∀ j : Fin N, ArrivedReady j g post := by
  obtain ⟨g, hg⟩ := (reachable_inv h).fireLogJust pre i post hlog
  exact ⟨g, hg.1, hg.2⟩

/-- C5 witness: in the demonstration trace, the events before the fire contain
the release of generation 0 and the justified arrival of the only worker. -/
theorem C5_no_early_fire_witness :
    ∃ g, Event.release g ∈ ([Event.release 0, Event.arrive 0 0, Event.ready 0,
        Event.slept 0, Event.stopSet] : List (Event 1))
      ∧ ∀ j : Fin 1, ArrivedReady j g [Event.release 0, Event.arrive 0 0,
          Event.ready 0, Event.slept 0, Event.stopSet] :=
  C5_no_early_fire 1 demoS reach_demo [Event.retrieve 0] 0
    [Event.release 0, Event.arrive 0 0, Event.ready 0, Event.slept 0, Event.stopSet] rfl

/-- C6 counterexample: a cycle whose fire command (`writeRegister`) raises
terminates the whole loop — `retrieveBuffer` is never called and the next
cycle never runs — contradicting the claim that the failure is logged and the
loop continues to the retrieve step. -/
theorem C6_counterexample :
    run_cycle cFireErr = ([Call.pollForTriggerReady, Call.barrierWait, Call.writeRegister],
        CycleOutcome.raised PyExn.fc2error)
    ∧ run_loop [cFireErr, cNormal]
        = ([Call.pollForTriggerReady, Call.barrierWait, Call.writeRegister],
           LoopExit.raisedExn PyExn.fc2error)
    ∧ Call.retrieveBuffer ∉ (run_loop [cFireErr, cNormal]).1
    ∧ Call.printCaptureError ∉ (run_loop [cFireErr, cNormal]).1
    ∧ Call.printCaptureSuccess ∉ (run_loop [cFireErr, cNormal]).1 := by
  refine ⟨by decide, by decide, by decide, by decide, by decide⟩

/-- C6 amended: a failure of the fire command raises an uncaught Fc2error
(`writeRegister` is wrapped in no try), terminating the worker's loop: the
retrieve step of that cycle and all subsequent cycles are skipped and the
worker proceeds to the finally cleanup; nothing is logged for it. -/
theorem C6_amended (c : CycleEnv) (rest : List CycleEnv)
    (h1 : c.stopAtTop = false) (h2 : c.wait = WaitResult.released)
    (h3 : c.fire = Outcome.err) :
    run_cycle c = ([Call.pollForTriggerReady, Call.barrierWait, Call.writeRegister],
        CycleOutcome.raised PyExn.fc2error)
    ∧ run_loop (c :: rest)
        = ([Call.pollForTriggerReady, Call.barrierWait, Call.writeRegister],
           LoopExit.raisedExn PyExn.fc2error) := by
  have hc : run_cycle c
      = ([Call.pollForTriggerReady, Call.barrierWait, Call.writeRegister],
         CycleOutcome.raised PyExn.fc2error) := by
    simp [run_cycle, h1, h2, h3, barrier_wait_raises]
  exact ⟨hc, by simp [run_loop, hc]⟩

/-- C6 amended witness. -/
theorem C6_amended_witness :
    run_cycle cFireErr = ([Call.pollForTriggerReady, Call.barrierWait, Call.writeRegister],
        CycleOutcome.raised PyExn.fc2error)
    ∧ run_loop [cFireErr]
        = ([Call.pollForTriggerReady, Call.barrierWait, Call.writeRegister],
           LoopExit.raisedExn PyExn.fc2error) :=
  C6_amended cFireErr [] rfl rfl rfl

/-- C7: a cycle whose retrieve call raises Fc2error catches it, reports it
(the error print), and continues: the loop's remaining behaviour is exactly
that of the following cycles, so a retrieval failure never terminates the
loop. -/
theorem C7_retrieve_recoverable (c : CycleEnv) (rest : List CycleEnv)
    (h1 : c.stopAtTop = false) (h2 : c.wait = WaitResult.released)
    (h3 : c.fire = Outcome.ok) (h4 : c.retrieve = Outcome.err) :
    run_cycle c = ([Call.pollForTriggerReady, Call.barrierWait, Call.writeRegister,
        Call.retrieveBuffer, Call.printCaptureError], CycleOutcome.continueNext)
    ∧ run_loop (c :: rest) = ((run_cycle c).1 ++ (run_loop rest).1, (run_loop rest).2) := by
  have hc : run_cycle c
      = ([Call.pollForTriggerReady, Call.barrierWait, Call.writeRegister,
          Call.retrieveBuffer, Call.printCaptureError], CycleOutcome.continueNext) := by
    simp [run_cycle, h1, h2, h3, h4, barrier_wait_raises]
  refine ⟨hc, ?_⟩
  rw [hc]
  simp [run_loop, hc]

/-- C7 witness: a failed retrieve followed by a clean stop cycle. -/
theorem C7_retrieve_recoverable_witness :
    run_cycle cRetrieveErr = ([Call.pollForTriggerReady, Call.barrierWait,
        Call.writeRegister, Call.retrieveBuffer, Call.printCaptureError],
        CycleOutcome.continueNext)
    ∧ run_loop [cRetrieveErr, cStop]
        = ((run_cycle cRetrieveErr).1 ++ (run_loop [cStop]).1, (run_loop [cStop]).2) :=
  C7_retrieve_recoverable cRetrieveErr [cStop] rfl rfl rfl rfl

/-- C4 counterexample: a worker that entered its capture loop and exits
cleanly via the stop event, but whose `cam.stopCapture()` (first statement of
the `finally` block) raises: `cam.disconnect()` is never invoked on this exit
path, although the run terminates. -/
theorem C4_counterexample :
    entered_loop envStopCaptureErr = true
    ∧ run_worker envStopCaptureErr
        = ([Call.getEmbeddedImageInfo, Call.setEmbeddedImageInfo, Call.printTimestampMsg,
            Call.connect, Call.getTriggerMode, Call.setTriggerMode, Call.startCapture,
            Call.printStandingBy, Call.pollForTriggerReady, Call.barrierWait,
            Call.writeRegister, Call.retrieveBuffer, Call.printCaptureSuccess,
            Call.stopCapture],
           RunResult.done (some PyExn.fc2error))
    ∧ Call.disconnect ∉ (run_worker envStopCaptureErr).1 := by
  refine ⟨by decide, by decide, by decide⟩

/-- C4 amended: on every terminating exit path of a worker that entered its
capture loop, the finally block runs — `stopCapture` is always invoked — and
`disconnect` is invoked exactly once provided `stopCapture` returns normally;
if `stopCapture` raises, `disconnect` is skipped.  The manager's `stop()`
joins every worker, so the join step is possible only when every worker has
terminated (disconnected or, when its cleanup failed, crashed without
disconnecting). -/
theorem C4_amended (env : RunEnv)
    (hent : entered_loop env = true)
    (hterm : (run_worker env).2 ≠ RunResult.fuelOut) :
    Call.stopCapture ∈ (run_worker env).1
    ∧ (env.stopCapture = Outcome.ok → (run_worker env).1.count Call.disconnect = 1)
    ∧ (env.stopCapture = Outcome.err → Call.disconnect ∉ (run_worker env).1)
    ∧ (∀ (N : Nat) (s s2 : SysState N), Step s SLabel.mgrJoin s2 →
        ∀ i : Fin N, s.phase i = Phase.disconnected ∨ s.phase i = Phase.crashed) := by
  simp only [entered_loop, Bool.and_eq_true, beq_iff_eq, Option.isNone_iff_eq_none] at hent
  obtain ⟨⟨⟨⟨hE, hC⟩, hG⟩, hS⟩, hSC⟩ := hent
  rcases henv : enable_embedded_timestamp env with ⟨tr0, e0⟩
  rw [henv] at hE
  simp only at hE
  subst hE
  have htr0 := enable_trace_no_cleanup env
  rw [henv] at htr0
  simp only at htr0
  rcases hloop : run_loop env.cycles with ⟨ltr, lexit⟩
  have hltr := run_loop_no_cleanup env.cycles
  rw [hloop] at hltr
  simp only at hltr
  have hbody : run_try_body env
      = ([Call.connect, Call.getTriggerMode, Call.setTriggerMode, Call.startCapture,
          Call.printStandingBy] ++ ltr,
         match lexit with
         | LoopExit.exitedNormally => BodyResult.finished none
         | LoopExit.raisedExn e => BodyResult.finished (some e)
         | LoopExit.fuelOut => BodyResult.stillLooping) := by
    cases lexit <;> simp [run_try_body, hC, hG, hS, hSC, hloop]
  have hlexit : lexit ≠ LoopExit.fuelOut := by
    intro hfe
    subst hfe
    simp only [run_worker, henv, hbody] at hterm
    exact hterm rfl
  have hbody2 : ∃ bexn, run_try_body env
      = ([Call.connect, Call.getTriggerMode, Call.setTriggerMode, Call.startCapture,
          Call.printStandingBy] ++ ltr, BodyResult.finished bexn) := by
    cases lexit with
    | exitedNormally => exact ⟨none, hbody⟩
    | raisedExn e => exact ⟨some e, hbody⟩
    | fuelOut => exact absurd rfl hlexit
  obtain ⟨bexn, hbody3⟩ := hbody2
  refine ⟨?_, ?_, ?_, ?_⟩
  · cases hsc : env.stopCapture with
    | err =>
      simp [run_worker, henv, hbody3, hsc]
    | ok =>
      cases hd : env.disconnect with
      | err => simp [run_worker, henv, hbody3, hsc, hd]
      | ok => simp [run_worker, henv, hbody3, hsc, hd]
  · intro hsc
    have hcount0 : tr0.count Call.disconnect = 0 := List.count_eq_zero.2 htr0.2.1
    have hcount1 : ltr.count Call.disconnect = 0 := List.count_eq_zero.2 hltr.2
    cases hd : env.disconnect with
    | err =>
      simp [run_worker, henv, hbody3, hsc, hd, List.count_append, List.count_cons,
        hcount0, hcount1]
    | ok =>
      simp [run_worker, henv, hbody3, hsc, hd, List.count_append, List.count_cons,
        hcount0, hcount1]
  · intro hsc
    simp only [run_worker, henv, hbody3, hsc]
    intro hmem
    rw [List.mem_append] at hmem
    rcases hmem with hmem | hmem
    · rw [List.mem_append] at hmem
      rcases hmem with hmem | hmem
      · exact htr0.2.1 hmem
      · rw [List.mem_append] at hmem
        rcases hmem with hmem | hmem
        · simp at hmem
        · exact hltr.2 hmem
    · simp at hmem
  · rintro N s s2 ⟨⟨-, hall⟩, rfl⟩ i
    exact hall i

/-- C4 amended witness: the all-successful run. -/
theorem C4_amended_witness :
    Call.stopCapture ∈ (run_worker envClean).1
    ∧ (envClean.stopCapture = Outcome.ok →
        (run_worker envClean).1.count Call.disconnect = 1)
    ∧ (envClean.stopCapture = Outcome.err → Call.disconnect ∉ (run_worker envClean).1)
    ∧ (∀ (N : Nat) (s s2 : SysState N), Step s SLabel.mgrJoin s2 →
        ∀ i : Fin N, s.phase i = Phase.disconnected ∨ s.phase i = Phase.crashed) :=
  C4_amended envClean (by decide) (by decide)

/-- C8: `CameraManager.__init__` discovers `N` cameras and builds one
`Barrier(N)` and one unset stop event; `start()` spawns exactly `N` workers
whose camera indices are precisely `0..N-1` (one-to-one, no duplicates), every
worker holding the manager's single barrier (with party count `N`) and its
single stop event. -/
theorem C8_start_topology (N : Nat) :
    ((CameraManager_start (CameraManager_init N)).processes.map
        (fun w => w.cam_index) = List.range N)
    ∧ (CameraManager_start (CameraManager_init N)).processes.length = N
    ∧ (CameraManager_init N).barrier.parties = N
    ∧ (∀ w ∈ (CameraManager_start (CameraManager_init N)).processes,
        w.barrier = (CameraManager_init N).barrier
          ∧ w.stop_event = (CameraManager_init N).stop_event
          ∧ w.barrier.parties = N)
    ∧ ((CameraManager_start (CameraManager_init N)).processes.map
        (fun w => w.cam_index)).Nodup := by
  have hmap : (CameraManager_start (CameraManager_init N)).processes.map
      (fun w => w.cam_index) = List.range N := by
    simp only [CameraManager_start, CameraManager_init, List.nil_append, List.map_map]
    exact List.map_id (List.range N)
  refine ⟨hmap, ?_, rfl, ?_, ?_⟩
  · simp [CameraManager_start, CameraManager_init]
  · intro w hw
    simp only [CameraManager_start, CameraManager_init, List.nil_append,
      List.mem_map, List.mem_range] at hw
    obtain ⟨i, -, rfl⟩ := hw
    exact ⟨rfl, rfl, rfl⟩
  · rw [hmap]
    exact List.nodup_range N

/-- C8 witness at `N = 2`. -/
theorem C8_start_topology_witness :
    (CameraManager_start (CameraManager_init 2)).processes.length = 2
    ∧ ({ cam_index := 0, barrier := { parties := 2 },
          stop_event := { is_set := false } } : CameraWorker).barrier
        = (CameraManager_init 2).barrier
    ∧ ((CameraManager_start (CameraManager_init 2)).processes.map
        (fun w => w.cam_index) = List.range 2) :=
  ⟨(C8_start_topology 2).2.1,
   ((C8_start_topology 2).2.2.2.1
     { cam_index := 0, barrier := { parties := 2 }, stop_event := { is_set := false } }
     (by decide)).1,
   (C8_start_topology 2).1⟩

/-- C10: `enable_embedded_timestamp` is invoked on the camera before
`cam.connect` and outside the try/finally region: every run's first call is
`getEmbeddedImageInfo`, and if it raises, the run terminates with the
exception having made no connect, no stopCapture and no disconnect call. -/
theorem C10_pre_try (env : RunEnv) (h : env.getEmbeddedInfo = Outcome.err) :
    run_worker env = ([Call.getEmbeddedImageInfo], RunResult.done (some PyExn.fc2error))
    ∧ Call.connect ∉ (run_worker env).1
    ∧ Call.stopCapture ∉ (run_worker env).1
    ∧ Call.disconnect ∉ (run_worker env).1
    ∧ (∀ env2 : RunEnv, ∃ rest, (run_worker env2).1 = Call.getEmbeddedImageInfo :: rest) := by
  have hE : enable_embedded_timestamp env
      = ([Call.getEmbeddedImageInfo], some PyExn.fc2error) := by
    simp [enable_embedded_timestamp, h]
  have hrw : run_worker env
      = ([Call.getEmbeddedImageInfo], RunResult.done (some PyExn.fc2error)) := by
    simp [run_worker, hE]
  exact ⟨hrw, by simp [hrw], by simp [hrw], by simp [hrw],
    fun env2 => run_worker_starts_with_embedded env2⟩

/-- C10 witness: the run whose `getEmbeddedImageInfo` raises. -/
theorem C10_pre_try_witness :
    run_worker envEmbeddedErr
      = ([Call.getEmbeddedImageInfo], RunResult.done (some PyExn.fc2error))
    ∧ Call.connect ∉ (run_worker envEmbeddedErr).1
    ∧ Call.stopCapture ∉ (run_worker envEmbeddedErr).1
    ∧ Call.disconnect ∉ (run_worker envEmbeddedErr).1
    ∧ (∀ env2 : RunEnv, ∃ rest, (run_worker env2).1 = Call.getEmbeddedImageInfo :: rest) :=
  C10_pre_try envEmbeddedErr rfl

end ThreadCam
